import Mathlib

/-
Verification of the pywinprint printing pipeline.

The embedding models `src/printer.py` and `src/driver.py`:
  * `fit_dib` (printer.py, Page.fit_dib) — page-fitting arithmetic, modelled
    over ℚ (Python float arithmetic modelled as exact rational arithmetic);
    Python `int()` truncation is modelled by `pyInt`.
  * the Printer/Document/Page context-manager lifecycle — modelled as an
    event trace with explicit exception propagation (`Res`, `withCM`).
  * `driver.py`'s printer resolution and file selection.
-/

namespace Pywinprint

/-- Python `int()` applied to a float: truncation toward zero.
For nonnegative arguments it is the floor. -/
def pyInt (q : ℚ) : ℤ := if q < 0 then -⌊-q⌋ else ⌊q⌋

/-- `scale = min(printer.paper_width / dib.size[0], printer.paper_height / dib.size[1])`
(printer.py line 178). -/
def fitScale (pW pH w h : ℤ) : ℚ := min ((pW : ℚ) / (w : ℚ)) ((pH : ℚ) / (h : ℚ))

/-- `width = int(dib.size[0] * scale)` (printer.py line 181). -/
def widthOf (pW pH w h : ℤ) : ℤ := pyInt ((w : ℚ) * fitScale pW pH w h)

/-- `height = int(dib.size[1] * scale)` (printer.py line 181). -/
def heightOf (pW pH w h : ℤ) : ℤ := pyInt ((h : ℚ) * fitScale pW pH w h)

/-- `x1 = int((printer.paper_width - width) / 2)` (printer.py line 182). -/
def x1Of (pW pH w h : ℤ) : ℤ := pyInt (((pW : ℚ) - (widthOf pW pH w h : ℚ)) / 2)

/-- `y1 = int((printer.paper_height - height) / 2)` (printer.py line 183). -/
def y1Of (pW pH w h : ℤ) : ℤ := pyInt (((pH : ℚ) - (heightOf pW pH w h : ℚ)) / 2)

/-- `Page.fit_dib` (printer.py lines 172-186): given the printer's paper size
`(pW, pH)` and the bitmap's pixel size `(w, h)`, returns `(x1, y1, x2, y2)`
with `x2 = x1 + width`, `y2 = y1 + height`. -/
def fit_dib (pW pH w h : ℤ) : ℤ × ℤ × ℤ × ℤ :=
  (x1Of pW pH w h, y1Of pW pH w h,
   x1Of pW pH w h + widthOf pW pH w h, y1Of pW pH w h + heightOf pW pH w h)

/-- Modelled from the spec's words (section 4.1 algorithm): the same formula
with round-to-nearest in place of the code's `int()` truncation. Used to
compare the spec's claimed algorithm against the code's `fit_dib`. -/
def fit_dib_round_spec (pW pH w h : ℤ) : ℤ × ℤ × ℤ × ℤ :=
  let scale : ℚ := min ((pW : ℚ) / (w : ℚ)) ((pH : ℚ) / (h : ℚ))
  let sw : ℤ := round ((w : ℚ) * scale)
  let sh : ℤ := round ((h : ℚ) * scale)
  let x1 : ℤ := round (((pW : ℚ) - (sw : ℚ)) / 2)
  let y1 : ℤ := round (((pH : ℚ) - (sh : ℚ)) / 2)
  (x1, y1, x1 + sw, y1 + sh)

lemma pyInt_of_nonneg {q : ℚ} (h : 0 ≤ q) : pyInt q = ⌊q⌋ := by
  unfold pyInt
  rw [if_neg (not_lt.mpr h)]

lemma pyInt_intCast (n : ℤ) : pyInt (n : ℚ) = n := by
  unfold pyInt
  rcases lt_or_le ((n : ℚ)) 0 with h | h
  · rw [if_pos h, ← Int.cast_neg, Int.floor_intCast, neg_neg]
  · rw [if_neg (not_lt.mpr h), Int.floor_intCast]

lemma pyInt_nonneg {q : ℚ} (h : 0 ≤ q) : 0 ≤ pyInt q := by
  rw [pyInt_of_nonneg h]
  exact Int.floor_nonneg.mpr h

lemma pyInt_le_int {q : ℚ} {n : ℤ} (h0 : 0 ≤ q) (h : q ≤ (n : ℚ)) : pyInt q ≤ n := by
  rw [pyInt_of_nonneg h0]
  calc ⌊q⌋ ≤ ⌊(n : ℚ)⌋ := Int.floor_le_floor h
    _ = n := Int.floor_intCast n

section FitLemmas

variable {pW pH w h : ℤ}

lemma fitScale_nonneg (hpW : 0 < pW) (hpH : 0 < pH) (hw : 0 < w) (hh : 0 < h) :
    0 ≤ fitScale pW pH w h := by
  refine le_min (div_nonneg ?_ ?_) (div_nonneg ?_ ?_) <;> positivity

lemma mul_fitScale_le_w (hw : 0 < w) : (w : ℚ) * fitScale pW pH w h ≤ (pW : ℚ) := by
  have hw' : (0 : ℚ) < (w : ℚ) := by exact_mod_cast hw
  calc (w : ℚ) * fitScale pW pH w h
      ≤ (w : ℚ) * ((pW : ℚ) / (w : ℚ)) :=
        mul_le_mul_of_nonneg_left (min_le_left _ _) hw'.le
    _ = (pW : ℚ) := by field_simp

lemma mul_fitScale_le_h (hh : 0 < h) : (h : ℚ) * fitScale pW pH w h ≤ (pH : ℚ) := by
  have hh' : (0 : ℚ) < (h : ℚ) := by exact_mod_cast hh
  calc (h : ℚ) * fitScale pW pH w h
      ≤ (h : ℚ) * ((pH : ℚ) / (h : ℚ)) :=
        mul_le_mul_of_nonneg_left (min_le_right _ _) hh'.le
    _ = (pH : ℚ) := by field_simp

lemma widthOf_nonneg (hpW : 0 < pW) (hpH : 0 < pH) (hw : 0 < w) (hh : 0 < h) :
    0 ≤ widthOf pW pH w h :=
  pyInt_nonneg (mul_nonneg (by positivity) (fitScale_nonneg hpW hpH hw hh))

lemma heightOf_nonneg (hpW : 0 < pW) (hpH : 0 < pH) (hw : 0 < w) (hh : 0 < h) :
    0 ≤ heightOf pW pH w h :=
  pyInt_nonneg (mul_nonneg (by positivity) (fitScale_nonneg hpW hpH hw hh))

lemma widthOf_le (hpW : 0 < pW) (hpH : 0 < pH) (hw : 0 < w) (hh : 0 < h) :
    widthOf pW pH w h ≤ pW :=
  pyInt_le_int (mul_nonneg (by positivity) (fitScale_nonneg hpW hpH hw hh))
    (mul_fitScale_le_w hw)

lemma heightOf_le (hpW : 0 < pW) (hpH : 0 < pH) (hw : 0 < w) (hh : 0 < h) :
    heightOf pW pH w h ≤ pH :=
  pyInt_le_int (mul_nonneg (by positivity) (fitScale_nonneg hpW hpH hw hh))
    (mul_fitScale_le_h hh)

lemma x1Of_nonneg (hpW : 0 < pW) (hpH : 0 < pH) (hw : 0 < w) (hh : 0 < h) :
    0 ≤ x1Of pW pH w h := by
  have hle : (widthOf pW pH w h : ℚ) ≤ (pW : ℚ) := by
    exact_mod_cast widthOf_le hpW hpH hw hh
  exact pyInt_nonneg (div_nonneg (sub_nonneg.mpr hle) (by norm_num))

lemma y1Of_nonneg (hpW : 0 < pW) (hpH : 0 < pH) (hw : 0 < w) (hh : 0 < h) :
    0 ≤ y1Of pW pH w h := by
  have hle : (heightOf pW pH w h : ℚ) ≤ (pH : ℚ) := by
    exact_mod_cast heightOf_le hpW hpH hw hh
  exact pyInt_nonneg (div_nonneg (sub_nonneg.mpr hle) (by norm_num))

lemma x1Of_le (hpW : 0 < pW) (hpH : 0 < pH) (hw : 0 < w) (hh : 0 < h) :
    x1Of pW pH w h ≤ pW - widthOf pW pH w h := by
  have hle : (widthOf pW pH w h : ℚ) ≤ (pW : ℚ) := by
    exact_mod_cast widthOf_le hpW hpH hw hh
  have h0 : (0 : ℚ) ≤ (pW : ℚ) - (widthOf pW pH w h : ℚ) := sub_nonneg.mpr hle
  refine pyInt_le_int (div_nonneg h0 (by norm_num)) ?_
  push_cast
  linarith [half_le_self h0]

lemma y1Of_le (hpW : 0 < pW) (hpH : 0 < pH) (hw : 0 < w) (hh : 0 < h) :
    y1Of pW pH w h ≤ pH - heightOf pW pH w h := by
  have hle : (heightOf pW pH w h : ℚ) ≤ (pH : ℚ) := by
    exact_mod_cast heightOf_le hpW hpH hw hh
  have h0 : (0 : ℚ) ≤ (pH : ℚ) - (heightOf pW pH w h : ℚ) := sub_nonneg.mpr hle
  refine pyInt_le_int (div_nonneg h0 (by norm_num)) ?_
  push_cast
  linarith [half_le_self h0]

end FitLemmas

/-- C2: for positive bitmap size `(w,h)` and positive paper size `(pW,pH)`,
the rectangle `(x1,y1,x2,y2)` returned by `fit_dib` satisfies
`0 ≤ x1 ≤ x2 ≤ pW` and `0 ≤ y1 ≤ y2 ≤ pH`: it lies within the paper bounds. -/
theorem fit_dib_within_paper (pW pH w h : ℤ)
    (hpW : 0 < pW) (hpH : 0 < pH) (hw : 0 < w) (hh : 0 < h) :
    0 ≤ (fit_dib pW pH w h).1 ∧
    (fit_dib pW pH w h).1 ≤ (fit_dib pW pH w h).2.2.1 ∧
    (fit_dib pW pH w h).2.2.1 ≤ pW ∧
    0 ≤ (fit_dib pW pH w h).2.1 ∧
    (fit_dib pW pH w h).2.1 ≤ (fit_dib pW pH w h).2.2.2 ∧
    (fit_dib pW pH w h).2.2.2 ≤ pH := by
  have hx1 := x1Of_nonneg hpW hpH hw hh
  have hy1 := y1Of_nonneg hpW hpH hw hh
  have hwn := widthOf_nonneg hpW hpH hw hh
  have hhn := heightOf_nonneg hpW hpH hw hh
  have hx1le := x1Of_le hpW hpH hw hh
  have hy1le := y1Of_le hpW hpH hw hh
  refine ⟨hx1, ?_, ?_, hy1, ?_, ?_⟩ <;> simp only [fit_dib] <;> omega

/-- Witness for `fit_dib_within_paper` at paper 3×8 and bitmap 5×3. -/
theorem fit_dib_within_paper_witness :
    0 ≤ (fit_dib 3 8 5 3).1 ∧
    (fit_dib 3 8 5 3).1 ≤ (fit_dib 3 8 5 3).2.2.1 ∧
    (fit_dib 3 8 5 3).2.2.1 ≤ 3 ∧
    0 ≤ (fit_dib 3 8 5 3).2.1 ∧
    (fit_dib 3 8 5 3).2.1 ≤ (fit_dib 3 8 5 3).2.2.2 ∧
    (fit_dib 3 8 5 3).2.2.2 ≤ 8 :=
  fit_dib_within_paper 3 8 5 3 (by norm_num) (by norm_num) (by norm_num) (by norm_num)

/-- C3 counterexample: at paper 3×8 and bitmap 5×3 the code truncates the
scaled height `9/5` to `1`, while the spec's round-to-nearest formula gives
`2`; the resulting rectangles differ. -/
theorem fit_dib_round_spec_counterexample :
    fit_dib 3 8 5 3 = (0, 3, 3, 4) ∧
    fit_dib_round_spec 3 8 5 3 = (0, 3, 3, 5) ∧
    fit_dib 3 8 5 3 ≠ fit_dib_round_spec 3 8 5 3 := by
  have h1 : fit_dib 3 8 5 3 = (0, 3, 3, 4) := by
    norm_num [fit_dib, x1Of, y1Of, widthOf, heightOf, fitScale, pyInt, min_def]
  have h2 : fit_dib_round_spec 3 8 5 3 = (0, 3, 3, 5) := by
    norm_num [fit_dib_round_spec, min_def, round_eq]
  refine ⟨h1, h2, ?_⟩
  rw [h1, h2]
  decide

/-- C3 amended: for positive inputs, `fit_dib` computes
`scale = min(pW/w, pH/h)`, `width = ⌊w·scale⌋`, `height = ⌊h·scale⌋`,
`x1 = ⌊(pW−width)/2⌋`, `y1 = ⌊(pH−height)/2⌋`, `x2 = x1+width`,
`y2 = y1+height` — truncation toward zero (floor, all quantities being
nonnegative), not rounding to the nearest integer. -/
theorem fit_dib_trunc_formula (pW pH w h : ℤ)
    (hpW : 0 < pW) (hpH : 0 < pH) (hw : 0 < w) (hh : 0 < h) :
    fit_dib pW pH w h =
      (⌊((pW : ℚ) - (⌊(w : ℚ) * min ((pW : ℚ) / (w : ℚ)) ((pH : ℚ) / (h : ℚ))⌋ : ℚ)) / 2⌋,
       ⌊((pH : ℚ) - (⌊(h : ℚ) * min ((pW : ℚ) / (w : ℚ)) ((pH : ℚ) / (h : ℚ))⌋ : ℚ)) / 2⌋,
       ⌊((pW : ℚ) - (⌊(w : ℚ) * min ((pW : ℚ) / (w : ℚ)) ((pH : ℚ) / (h : ℚ))⌋ : ℚ)) / 2⌋
         + ⌊(w : ℚ) * min ((pW : ℚ) / (w : ℚ)) ((pH : ℚ) / (h : ℚ))⌋,
       ⌊((pH : ℚ) - (⌊(h : ℚ) * min ((pW : ℚ) / (w : ℚ)) ((pH : ℚ) / (h : ℚ))⌋ : ℚ)) / 2⌋
         + ⌊(h : ℚ) * min ((pW : ℚ) / (w : ℚ)) ((pH : ℚ) / (h : ℚ))⌋) := by
  have hs := fitScale_nonneg hpW hpH hw hh
  have hw0 : (0 : ℚ) ≤ (w : ℚ) * fitScale pW pH w h := mul_nonneg (by positivity) hs
  have hh0 : (0 : ℚ) ≤ (h : ℚ) * fitScale pW pH w h := mul_nonneg (by positivity) hs
  have hwle : (widthOf pW pH w h : ℚ) ≤ (pW : ℚ) := by
    exact_mod_cast widthOf_le hpW hpH hw hh
  have hhle : (heightOf pW pH w h : ℚ) ≤ (pH : ℚ) := by
    exact_mod_cast heightOf_le hpW hpH hw hh
  have hx0 : (0 : ℚ) ≤ ((pW : ℚ) - (widthOf pW pH w h : ℚ)) / 2 :=
    div_nonneg (sub_nonneg.mpr hwle) (by norm_num)
  have hy0 : (0 : ℚ) ≤ ((pH : ℚ) - (heightOf pW pH w h : ℚ)) / 2 :=
    div_nonneg (sub_nonneg.mpr hhle) (by norm_num)
  have hwq : widthOf pW pH w h = ⌊(w : ℚ) * fitScale pW pH w h⌋ := pyInt_of_nonneg hw0
  have hhq : heightOf pW pH w h = ⌊(h : ℚ) * fitScale pW pH w h⌋ := pyInt_of_nonneg hh0
  have hxq : x1Of pW pH w h = ⌊((pW : ℚ) - (widthOf pW pH w h : ℚ)) / 2⌋ :=
    pyInt_of_nonneg hx0
  have hyq : y1Of pW pH w h = ⌊((pH : ℚ) - (heightOf pW pH w h : ℚ)) / 2⌋ :=
    pyInt_of_nonneg hy0
  rw [fit_dib, hxq, hyq, hwq, hhq]
  simp only [fitScale]

/-- Witness for `fit_dib_trunc_formula` at paper 3×8 and bitmap 5×3. -/
theorem fit_dib_trunc_formula_witness : fit_dib 3 8 5 3 = (0, 3, 3, 4) := by
  rw [fit_dib_trunc_formula 3 8 5 3 (by norm_num) (by norm_num) (by norm_num) (by norm_num)]
  norm_num [min_def]

lemma fitScale_refit_one {pW pH w h : ℤ}
    (hpW : 0 < pW) (hpH : 0 < pH) (hw : 0 < w) (hh : 0 < h)
    (hfw : 0 < widthOf pW pH w h) (hfh : 0 < heightOf pW pH w h) :
    fitScale pW pH (widthOf pW pH w h) (heightOf pW pH w h) = 1 := by
  have hwq : (0 : ℚ) < (w : ℚ) := by exact_mod_cast hw
  have hhq : (0 : ℚ) < (h : ℚ) := by exact_mod_cast hh
  have hWq : (0 : ℚ) < (pW : ℚ) := by exact_mod_cast hpW
  have hHq : (0 : ℚ) < (pH : ℚ) := by exact_mod_cast hpH
  have hfwq : (0 : ℚ) < (widthOf pW pH w h : ℚ) := by exact_mod_cast hfw
  have hfhq : (0 : ℚ) < (heightOf pW pH w h : ℚ) := by exact_mod_cast hfh
  have hwle : (widthOf pW pH w h : ℚ) ≤ (pW : ℚ) := by
    exact_mod_cast widthOf_le hpW hpH hw hh
  have hhle : (heightOf pW pH w h : ℚ) ≤ (pH : ℚ) := by
    exact_mod_cast heightOf_le hpW hpH hw hh
  rcases le_total ((pW : ℚ) / (w : ℚ)) ((pH : ℚ) / (h : ℚ)) with hle | hle
  · have hwidth : widthOf pW pH w h = pW := by
      show pyInt ((w : ℚ) * min ((pW : ℚ) / (w : ℚ)) ((pH : ℚ) / (h : ℚ))) = pW
      rw [min_eq_left hle, mul_comm, div_mul_cancel₀ _ hwq.ne', pyInt_intCast]
    rw [hwidth]
    show min ((pW : ℚ) / (pW : ℚ)) ((pH : ℚ) / ((heightOf pW pH w h : ℤ) : ℚ)) = 1
    rw [div_self hWq.ne']
    exact min_eq_left ((one_le_div hfhq).mpr hhle)
  · have hheight : heightOf pW pH w h = pH := by
      show pyInt ((h : ℚ) * min ((pW : ℚ) / (w : ℚ)) ((pH : ℚ) / (h : ℚ))) = pH
      rw [min_eq_right hle, mul_comm, div_mul_cancel₀ _ hhq.ne', pyInt_intCast]
    rw [hheight]
    show min ((pW : ℚ) / ((widthOf pW pH w h : ℤ) : ℚ)) ((pH : ℚ) / (pH : ℚ)) = 1
    rw [div_self hHq.ne']
    exact min_eq_right ((one_le_div hfwq).mpr hwle)

/-- C6: page fitting is idempotent. For positive paper and bitmap sizes, if
`fit_dib` yields `(x1,y1,x2,y2)` with positive fitted size
`(x2−x1, y2−y1)`, then fitting a bitmap of that size against the same paper
yields the same rectangle. -/
theorem fit_dib_idempotent (pW pH w h : ℤ)
    (hpW : 0 < pW) (hpH : 0 < pH) (hw : 0 < w) (hh : 0 < h)
    (hfw : 0 < (fit_dib pW pH w h).2.2.1 - (fit_dib pW pH w h).1)
    (hfh : 0 < (fit_dib pW pH w h).2.2.2 - (fit_dib pW pH w h).2.1) :
    fit_dib pW pH ((fit_dib pW pH w h).2.2.1 - (fit_dib pW pH w h).1)
      ((fit_dib pW pH w h).2.2.2 - (fit_dib pW pH w h).2.1) =
    fit_dib pW pH w h := by
  have e1 : (fit_dib pW pH w h).2.2.1 - (fit_dib pW pH w h).1 = widthOf pW pH w h := by
    simp [fit_dib]
  have e2 : (fit_dib pW pH w h).2.2.2 - (fit_dib pW pH w h).2.1 = heightOf pW pH w h := by
    simp [fit_dib]
  rw [e1] at hfw ⊢
  rw [e2] at hfh ⊢
  have hs1 := fitScale_refit_one hpW hpH hw hh hfw hfh
  have hW : widthOf pW pH (widthOf pW pH w h) (heightOf pW pH w h) = widthOf pW pH w h := by
    show pyInt (((widthOf pW pH w h : ℤ) : ℚ) *
      fitScale pW pH (widthOf pW pH w h) (heightOf pW pH w h)) = widthOf pW pH w h
    rw [hs1, mul_one, pyInt_intCast]
  have hH : heightOf pW pH (widthOf pW pH w h) (heightOf pW pH w h) = heightOf pW pH w h := by
    show pyInt (((heightOf pW pH w h : ℤ) : ℚ) *
      fitScale pW pH (widthOf pW pH w h) (heightOf pW pH w h)) = heightOf pW pH w h
    rw [hs1, mul_one, pyInt_intCast]
  have hx : x1Of pW pH (widthOf pW pH w h) (heightOf pW pH w h) = x1Of pW pH w h := by
    show pyInt (((pW : ℚ) -
      ((widthOf pW pH (widthOf pW pH w h) (heightOf pW pH w h) : ℤ) : ℚ)) / 2) =
      x1Of pW pH w h
    rw [hW]
    rfl
  have hy : y1Of pW pH (widthOf pW pH w h) (heightOf pW pH w h) = y1Of pW pH w h := by
    show pyInt (((pH : ℚ) -
      ((heightOf pW pH (widthOf pW pH w h) (heightOf pW pH w h) : ℤ) : ℚ)) / 2) =
      y1Of pW pH w h
    rw [hH]
    rfl
  show (x1Of pW pH (widthOf pW pH w h) (heightOf pW pH w h),
        y1Of pW pH (widthOf pW pH w h) (heightOf pW pH w h),
        x1Of pW pH (widthOf pW pH w h) (heightOf pW pH w h)
          + widthOf pW pH (widthOf pW pH w h) (heightOf pW pH w h),
        y1Of pW pH (widthOf pW pH w h) (heightOf pW pH w h)
          + heightOf pW pH (widthOf pW pH w h) (heightOf pW pH w h)) = fit_dib pW pH w h
  rw [hx, hy, hW, hH]
  rfl

/-- Witness for `fit_dib_idempotent` at paper 3×8 and bitmap 5×3
(fitted size 3×1). -/
theorem fit_dib_idempotent_witness :
    fit_dib 3 8 ((fit_dib 3 8 5 3).2.2.1 - (fit_dib 3 8 5 3).1)
      ((fit_dib 3 8 5 3).2.2.2 - (fit_dib 3 8 5 3).2.1) = fit_dib 3 8 5 3 := by
  refine fit_dib_idempotent 3 8 5 3 (by norm_num) (by norm_num) (by norm_num) (by norm_num) ?_ ?_
  · norm_num [fit_dib, x1Of, y1Of, widthOf, heightOf, fitScale, pyInt, min_def]
  · norm_num [fit_dib, x1Of, y1Of, widthOf, heightOf, fitScale, pyInt, min_def]

/-- A PIL image / device-independent bitmap. `rotations` is a ghost counter
of how many times `Image.rotate(90)` has been applied (PIL's `rotate` keeps
the canvas size, so only the counter observes the rotation), and `failsDraw`
is a ghost flag modelling whether the `dib.draw` call on this bitmap raises. -/
structure PILImage where
  width : ℕ
  height : ℕ
  mode : String
  rotations : ℕ
  failsDraw : Bool
deriving DecidableEq, Repr

/-- `Image.convert("RGB")` (printer.py line 167). -/
def convertRGB (img : PILImage) : PILImage := { img with mode := "RGB" }

/-- `Image.rotate(90)` (printer.py line 169). -/
def rotate90 (img : PILImage) : PILImage := { img with rotations := img.rotations + 1 }

/-- Calls issued to the Windows device (and shell), in order. -/
inductive Ev where
  | createDC (name : String)
  | deleteDC
  | startDoc (name : String)
  | endDoc
  | startPage
  | endPage
  | draw (img : PILImage)
  | shellPrint (name : String)
deriving DecidableEq, Repr

/-- Exceptions that the model propagates. -/
inductive PyErr where
  | drawError
  | deviceError
deriving DecidableEq, Repr

/-- Result of running a piece of the pipeline: the calls it issued, and the
exception that escaped it, if any. -/
structure Res where
  trace : List Ev
  err : Option PyErr
deriving DecidableEq, Repr

/-- Sequential composition: Python statements run in order, and an exception
raised by the first aborts the second. -/
def seqRes (a b : Res) : Res :=
  match a.err with
  | some _ => a
  | none => ⟨a.trace ++ b.trace, b.err⟩

/-- Python `with` statement: `__enter__` issues `enterEv`, the body runs, and
`__exit__` issues `exitEv` on every exit path — normal or exceptional — after
which a pending exception keeps propagating. -/
def withCM (enterEv : Ev) (body : Res) (exitEv : Ev) : Res :=
  ⟨enterEv :: body.trace ++ [exitEv], body.err⟩

namespace Page

/-- `Page.get_dib` (printer.py lines 160-170): convert the image to RGB,
then rotate 90° if it is wider than tall. -/
def get_dib (img : PILImage) : PILImage :=
  let bmp := convertRGB img
  if bmp.height < bmp.width then rotate90 bmp else bmp

/-- `Page.send` (printer.py lines 153-157): `dib.draw(handle, fit_dib(...))`.
The placement rectangle is `fit_dib`, analysed separately; the event records
which bitmap was handed to the drawing primitive. -/
def send (dib : PILImage) : Res :=
  ⟨[.draw dib], if dib.failsDraw then some .drawError else none⟩

end Page

/-- An argument of `Document.send`: a `Path` (printer.py line 85 passes the
image file) or an already-constructed `Dib` (line 83, one per PDF page). -/
inductive SendItem where
  | path (img : PILImage)
  | dib (img : PILImage)
deriving DecidableEq, Repr

/-- `if isinstance(item, Path): item = Page.get_dib(item)` (printer.py
lines 121-122). -/
def itemDib : SendItem → PILImage
  | .path img => Page.get_dib img
  | .dib img => img

/-- One iteration of the `Document.send` loop (printer.py lines 120-124):
convert the item if needed, then `with Page(self) as page: page.send(item)`. -/
def pageRun (item : SendItem) : Res :=
  withCM .startPage (Page.send (itemDib item)) .endPage

namespace Document

/-- `Document.send` (printer.py lines 115-124): print each item as one page;
an exception stops the loop and propagates. -/
def send : List SendItem → Res
  | [] => ⟨[], none⟩
  | item :: rest => seqRes (pageRun item) (send rest)

end Document

/-- What one printed file contains: a PDF rasterized by `convert_from_path`
into one bitmap per page, or a single image file. -/
inductive PrintContent where
  | pdf (pages : List PILImage)
  | image (img : PILImage)
deriving DecidableEq, Repr

/-- A file to print: its name (`path.name`) and, per its suffix, its content
(`path.suffix == ".pdf"` selects the PDF branch, printer.py line 82). -/
structure PrintInput where
  name : String
  content : PrintContent
deriving DecidableEq, Repr

/-- Arguments built by `Printer.device_print` (printer.py lines 82-85): a PDF
sends one already-wrapped `Dib` per rasterized page (`Dib(page) for page in
convert_from_path(path)` — no `Page.get_dib` on them), any other file sends
its path. -/
def itemsOf : PrintContent → List SendItem
  | .pdf pages => pages.map SendItem.dib
  | .image img => [SendItem.path img]

namespace Printer

/-- `Printer.device_print` (printer.py lines 76-85): inside
`with Document(self, path.name)`, send the file's items as pages. -/
def device_print (input : PrintInput) : Res :=
  withCM (.startDoc input.name) (Document.send (itemsOf input.content)) .endDoc

end Printer

def isStartDoc : Ev → Bool
  | .startDoc _ => true
  | _ => false

def isEndDoc : Ev → Bool
  | .endDoc => true
  | _ => false

def isStartPage : Ev → Bool
  | .startPage => true
  | _ => false

def isEndPage : Ev → Bool
  | .endPage => true
  | _ => false

/-- Nesting automaton over device calls: state 0 = no document open,
1 = document open, 2 = page open. Any call out of order (a second
`StartDoc`, `EndDoc` with a page open, a draw outside a page, …) rejects. -/
def nestStep : Option ℕ → Ev → Option ℕ
  | some 0, .startDoc _ => some 1
  | some 1, .endDoc => some 0
  | some 1, .startPage => some 2
  | some 2, .endPage => some 1
  | some 2, .draw _ => some 2
  | _, _ => none

/-- A trace is well-nested when the automaton accepts it and ends with
nothing open. -/
def wellNested (tr : List Ev) : Bool := tr.foldl nestStep (some 0) == some 0

/-- The device calls one `Document.send` loop iteration issues. -/
def pageBlock (item : SendItem) : List Ev :=
  [.startPage, .draw (itemDib item), .endPage]

/-- The items whose pages actually start: everything up to and including the
first item whose draw raises (the raised exception stops the loop there). -/
def takenItems : List SendItem → List SendItem
  | [] => []
  | i :: rest => if (itemDib i).failsDraw then [i] else i :: takenItems rest

lemma document_send_trace (items : List SendItem) :
    (Document.send items).trace = ((takenItems items).map pageBlock).flatten := by
  induction items with
  | nil => rfl
  | cons i rest ih =>
    cases hf : (itemDib i).failsDraw with
    | true =>
      simp [Document.send, seqRes, pageRun, Page.send, withCM, takenItems, hf, pageBlock]
    | false =>
      simp [Document.send, seqRes, pageRun, Page.send, withCM, takenItems, hf, pageBlock, ih]

lemma foldl_nestStep_pageBlock (i : SendItem) :
    List.foldl nestStep (some 1) (pageBlock i) = some 1 := rfl

lemma foldl_nestStep_join (blocks : List SendItem) :
    List.foldl nestStep (some 1) ((blocks.map pageBlock).flatten) = some 1 := by
  induction blocks with
  | nil => rfl
  | cons i rest ih =>
    rw [List.map_cons, List.flatten_cons, List.foldl_append, foldl_nestStep_pageBlock]
    exact ih

lemma pageBlock_countP_isStartDoc (i : SendItem) : (pageBlock i).countP isStartDoc = 0 := rfl

lemma pageBlock_countP_isEndDoc (i : SendItem) : (pageBlock i).countP isEndDoc = 0 := rfl

lemma pageBlock_countP_isStartPage (i : SendItem) : (pageBlock i).countP isStartPage = 1 := rfl

lemma pageBlock_countP_isEndPage (i : SendItem) : (pageBlock i).countP isEndPage = 1 := rfl

lemma join_countP_isStartDoc (blocks : List SendItem) :
    ((blocks.map pageBlock).flatten).countP isStartDoc = 0 := by
  induction blocks with
  | nil => rfl
  | cons i rest ih =>
    rw [List.map_cons, List.flatten_cons, List.countP_append, pageBlock_countP_isStartDoc, ih]

lemma join_countP_isEndDoc (blocks : List SendItem) :
    ((blocks.map pageBlock).flatten).countP isEndDoc = 0 := by
  induction blocks with
  | nil => rfl
  | cons i rest ih =>
    rw [List.map_cons, List.flatten_cons, List.countP_append, pageBlock_countP_isEndDoc, ih]

lemma join_countP_isStartPage (blocks : List SendItem) :
    ((blocks.map pageBlock).flatten).countP isStartPage = blocks.length := by
  induction blocks with
  | nil => rfl
  | cons i rest ih =>
    rw [List.map_cons, List.flatten_cons, List.countP_append, pageBlock_countP_isStartPage, ih,
      List.length_cons]
    omega

lemma join_countP_isEndPage (blocks : List SendItem) :
    ((blocks.map pageBlock).flatten).countP isEndPage = blocks.length := by
  induction blocks with
  | nil => rfl
  | cons i rest ih =>
    rw [List.map_cons, List.flatten_cons, List.countP_append, pageBlock_countP_isEndPage, ih,
      List.length_cons]
    omega

lemma device_print_trace (input : PrintInput) :
    (Printer.device_print input).trace =
      Ev.startDoc input.name :: ((takenItems (itemsOf input.content)).map pageBlock).flatten
        ++ [Ev.endDoc] := by
  show Ev.startDoc input.name :: (Document.send (itemsOf input.content)).trace ++ [Ev.endDoc] = _
  rw [document_send_trace]

/-- C1: the device calls issued by `Printer.device_print` for one file are
strictly nested — exactly one `StartDoc`/`EndDoc` pair around
`StartPage`/draw/`EndPage` blocks — and every started page gets its matching
`EndPage`, for every input, including those whose draw calls raise (context
managers issue `EndPage`/`EndDoc` on the exceptional path too). -/
theorem device_print_balanced (input : PrintInput) :
    wellNested (Printer.device_print input).trace = true ∧
    (Printer.device_print input).trace.countP isStartDoc = 1 ∧
    (Printer.device_print input).trace.countP isEndDoc = 1 ∧
    (Printer.device_print input).trace.countP isStartPage =
      (Printer.device_print input).trace.countP isEndPage := by
  refine ⟨?_, ?_, ?_, ?_⟩ <;> rw [device_print_trace]
  · unfold wellNested
    have hmid : List.foldl nestStep (some 0)
        (Ev.startDoc input.name ::
          ((takenItems (itemsOf input.content)).map pageBlock).flatten) = some 1 := by
      rw [List.foldl_cons]
      exact foldl_nestStep_join _
    rw [List.foldl_append, hmid]
    rfl
  · rw [List.countP_append]
    have h1 : List.countP isStartDoc
        (Ev.startDoc input.name ::
          ((takenItems (itemsOf input.content)).map pageBlock).flatten) = 1 := by
      rw [List.countP_cons, join_countP_isStartDoc]
      rfl
    rw [h1]
    rfl
  · rw [List.countP_append]
    have h1 : List.countP isEndDoc
        (Ev.startDoc input.name ::
          ((takenItems (itemsOf input.content)).map pageBlock).flatten) = 0 := by
      rw [List.countP_cons, join_countP_isEndDoc]
      rfl
    rw [h1]
    rfl
  · simp only [List.countP_append]
    have hs : List.countP isStartPage
        (Ev.startDoc input.name ::
          ((takenItems (itemsOf input.content)).map pageBlock).flatten) =
        (takenItems (itemsOf input.content)).length := by
      rw [List.countP_cons, join_countP_isStartPage]
      rfl
    have he : List.countP isEndPage
        (Ev.startDoc input.name ::
          ((takenItems (itemsOf input.content)).map pageBlock).flatten) =
        (takenItems (itemsOf input.content)).length := by
      rw [List.countP_cons, join_countP_isEndPage]
      rfl
    rw [hs, he]
    rfl

def drawOf : Ev → Option PILImage
  | .draw img => some img
  | _ => none

/-- The bitmaps handed to the drawing primitive during a run, in order. -/
def drawnDibs (r : Res) : List PILImage := r.trace.filterMap drawOf

/-- The Bitmap Converter post-processing rule of the spec (section 4.2):
the bitmap is in RGB mode, and has been rotated when wider than tall. -/
def postProcessed (img : PILImage) : Prop :=
  img.mode = "RGB" ∧ (img.height < img.width → 0 < img.rotations)

lemma filterMap_drawOf_single (i : SendItem) :
    (Document.send [i]).trace.filterMap drawOf = [itemDib i] := by
  cases hfd : (itemDib i).failsDraw <;>
    simp [Document.send, seqRes, pageRun, withCM, Page.send, hfd, drawOf]

lemma filterMap_drawOf_send (items : List SendItem)
    (h : ∀ i ∈ items, (itemDib i).failsDraw = false) :
    (Document.send items).trace.filterMap drawOf = items.map itemDib := by
  induction items with
  | nil => rfl
  | cons i rest ih =>
    have hf : (itemDib i).failsDraw = false := h i (List.mem_cons_self i rest)
    have hrest := ih (fun j hj => h j (List.mem_cons_of_mem i hj))
    simp [Document.send, seqRes, pageRun, withCM, Page.send, hf, drawOf, hrest]

/-- C4 counterexample: printing a one-page PDF whose rasterized page is
100×50 (wider than tall) hands that page to the drawing primitive unrotated
(`rotations = 0`): PDF-rasterized bitmaps are wrapped in `Dib` directly
(printer.py line 83) without the `Page.get_dib` post-processing. -/
theorem pdf_page_bypasses_postprocessing :
    PILImage.mk 100 50 "RGB" 0 false ∈
      drawnDibs (Printer.device_print
        ⟨"doc.pdf", PrintContent.pdf [PILImage.mk 100 50 "RGB" 0 false]⟩) ∧
    ¬ postProcessed (PILImage.mk 100 50 "RGB" 0 false) := by
  constructor
  · simp [drawnDibs, Printer.device_print, itemsOf, withCM, Document.send, seqRes,
      pageRun, Page.send, drawOf, itemDib]
  · intro hpp
    have := hpp.2 (by norm_num)
    simp at this

/-- C4 amended: bitmaps decoded from image files are post-processed by
`Page.get_dib` (RGB conversion, rotate-if-wider) before being drawn, but the
bitmaps of a rasterized PDF are handed to the drawing primitive exactly as
the rasterizer produced them — the rotate-when-wider rule is not applied to
them. -/
theorem postprocessing_scope (nameI namePdf : String) (img : PILImage) (pages : List PILImage)
    (hp : ∀ p ∈ pages, p.failsDraw = false) :
    drawnDibs (Printer.device_print ⟨nameI, PrintContent.image img⟩) = [Page.get_dib img] ∧
    postProcessed (Page.get_dib img) ∧
    drawnDibs (Printer.device_print ⟨namePdf, PrintContent.pdf pages⟩) = pages := by
  refine ⟨?_, ?_, ?_⟩
  · have h1 := filterMap_drawOf_single (SendItem.path img)
    simp only [drawnDibs, Printer.device_print, itemsOf, withCM]
    simp [List.filterMap_append, drawOf, h1, itemDib]
  · unfold postProcessed Page.get_dib convertRGB rotate90
    by_cases hwide : img.height < img.width <;> simp [hwide]
  · have hitems : ∀ i ∈ pages.map SendItem.dib, (itemDib i).failsDraw = false := by
      intro i hi
      obtain ⟨p, hp', rfl⟩ := List.mem_map.mp hi
      exact hp p hp'
    have h1 := filterMap_drawOf_send (pages.map SendItem.dib) hitems
    simp only [drawnDibs, Printer.device_print, itemsOf, withCM]
    simp [List.filterMap_append, drawOf, h1, itemDib, List.map_map]
    have hid : (itemDib ∘ SendItem.dib) = id := rfl
    rw [hid, List.map_id]

/-- Witness for `postprocessing_scope`: an image file 100×50 in mode "L" and
a one-page PDF whose page is 10×20. -/
theorem postprocessing_scope_witness :
    drawnDibs (Printer.device_print
      ⟨"a.png", PrintContent.image (PILImage.mk 100 50 "L" 0 false)⟩) =
      [Page.get_dib (PILImage.mk 100 50 "L" 0 false)] ∧
    postProcessed (Page.get_dib (PILImage.mk 100 50 "L" 0 false)) ∧
    drawnDibs (Printer.device_print
      ⟨"b.pdf", PrintContent.pdf [PILImage.mk 10 20 "RGB" 0 false]⟩) =
      [PILImage.mk 10 20 "RGB" 0 false] :=
  postprocessing_scope "a.png" "b.pdf" (PILImage.mk 100 50 "L" 0 false)
    [PILImage.mk 10 20 "RGB" 0 false] (by simp)

/-- C5: converting an image file with `Page.get_dib` rotates a bitmap whose
width exceeds its height exactly once, and never rotates a bitmap whose
height is at least its width. -/
theorem get_dib_rotation (w h : ℕ) (mode : String) (fails : Bool) :
    (Page.get_dib ⟨w, h, mode, 0, fails⟩).rotations = if h < w then 1 else 0 := by
  by_cases hwide : h < w <;> simp [Page.get_dib, convertRGB, rotate90, hwide]

/-- Strip leading and trailing whitespace, as Python `int(s)` does before
parsing. -/
def stripWS (cs : List Char) : List Char :=
  ((cs.dropWhile fun c => c.isWhitespace).reverse.dropWhile fun c => c.isWhitespace).reverse

/-- Numeric value of a digit string. -/
def digitsVal (cs : List Char) : ℕ :=
  cs.foldl (fun acc c => acc * 10 + (c.toNat - 48)) 0

/-- Python `int(input())` on the prompt's line (driver.py line 31): optional
surrounding whitespace, an optional sign, then decimal digits; anything else
raises `ValueError`, modelled as `none`. -/
def pyParseInt (s : String) : Option Int :=
  let core : List Char × Int :=
    match stripWS s.toList with
    | c :: rest =>
      if c = Char.ofNat 45 then (rest, -1)
      else if c = Char.ofNat 43 then (rest, 1)
      else (c :: rest, 1)
    | [] => ([], 1)
  if core.1 ≠ [] ∧ core.1.all Char.isDigit then
    some (core.2 * (digitsVal core.1 : ℤ))
  else none

/-- Python list indexing `l[i]`, negative indices counting from the end;
`none` models `IndexError`. -/
def pyIndex (l : List String) (i : ℤ) : Option String :=
  if 0 ≤ i then l.get? i.toNat
  else if i.natAbs ≤ l.length then l.get? (l.length - i.natAbs)
  else none

/-- The interactive branch of `get_printer_name` (driver.py lines 24-33):
`printer = PRINTERS[int(input())]`, where `EOFError` (no input line),
`ValueError` (unparsable input) and `IndexError` (index out of range) all
leave `printer = None`. -/
def promptSelect (printers : List String) (inp : Option String) : Option String :=
  match inp with
  | none => none
  | some s =>
    match pyParseInt s with
    | none => none
    | some i => pyIndex printers i

/-- `get_printer_name` (driver.py lines 14-34), parameterized by the
installed-printer catalog `PRINTERS`, the configured `EXPECTED_PRINTER`, and
the user's input line. `if EXPECTED_PRINTER and EXPECTED_PRINTER in
PRINTERS` — a `None` or empty configured name, or one absent from the
catalog, falls through to the interactive prompt. -/
def get_printer_name (printers : List String) (expected : Option String)
    (inp : Option String) : Option String :=
  match expected with
  | some e => if e ≠ "" ∧ e ∈ printers then some e else promptSelect printers inp
  | none => promptSelect printers inp

/-- `pathlib.PurePath.suffix`: the extension of the final path component —
the part from the last dot, empty when there is no dot, the last dot is the
component's first character, or it is its final character. `rcs` is the
final component reversed (everything after the last `/`). -/
def pathSuffix (p : String) : String :=
  let rcs := p.toList.reverse.takeWhile fun c => c ≠ Char.ofNat 47
  match rcs.findIdx? (fun c => c = Char.ofNat 46) with
  | none => ""
  | some j =>
    if 1 ≤ j ∧ j + 1 < rcs.length then String.mk ((rcs.take (j + 1)).reverse) else ""

/-- `PRINTABLE_EXTS` (driver.py line 10). -/
def PRINTABLE_EXTS : List String := [".pdf"]

/-- The File Selector (driver.py line 45):
`tuple(path for path in Path(".").rglob("*") if path.suffix in
PRINTABLE_EXTS)`, parameterized by the recursive scan's results. -/
def selectFiles (entries : List String) : List String :=
  entries.filter (fun p => pathSuffix p ∈ PRINTABLE_EXTS)

/-- Python truthiness of `printer_name : str | None` (driver.py line 43). -/
def truthy : Option String → Bool
  | none => false
  | some s => s != ""

/-- What a `main` run produces: the paths sent to the printer, and the lines
`main` itself prints afterwards. -/
structure MainOut where
  sent : List String
  console : List String
deriving DecidableEq, Repr

/-- `main` (driver.py lines 37-50), parameterized by the printer catalog,
the configured expected printer, the prompt input, and the recursive scan:
resolve a printer; if one was chosen, send the selected files, else report
`NO PRINTER SELECTED`; either way finish with `WORK COMPLETE`. -/
def main (printers : List String) (expected : Option String) (inp : Option String)
    (entries : List String) : MainOut :=
  if truthy (get_printer_name printers expected inp) then
    { sent := selectFiles entries, console := ["WORK COMPLETE"] }
  else
    { sent := [], console := ["NO PRINTER SELECTED", "WORK COMPLETE"] }

/-- An invalid or empty prompt input for the given catalog: no input line
(EOF), an unparsable integer, or an out-of-range index. -/
def invalidSelection (printers : List String) (inp : Option String) : Bool :=
  match inp with
  | none => true
  | some s =>
    match pyParseInt s with
    | none => true
    | some i => (pyIndex printers i).isNone

/-- C7: a configured target absent from the catalog falls back to the
interactive prompt (it is not silently replaced by an installed printer);
every invalid or empty prompt input selects no printer, after which the run
sends nothing, reports `NO PRINTER SELECTED`, and still finishes cleanly
with `WORK COMPLETE`. -/
theorem missing_target_falls_back (printers : List String) (tgt : String)
    (inp : Option String) (entries : List String)
    (htgt : tgt ∉ printers) (hinv : invalidSelection printers inp = true) :
    get_printer_name printers (some tgt) inp = promptSelect printers inp ∧
    promptSelect printers inp = none ∧
    main printers (some tgt) inp entries =
      ⟨[], ["NO PRINTER SELECTED", "WORK COMPLETE"]⟩ := by
  have h1 : get_printer_name printers (some tgt) inp = promptSelect printers inp := by
    unfold get_printer_name
    exact if_neg (fun hc => htgt hc.2)
  have h2 : promptSelect printers inp = none := by
    cases inp with
    | none => rfl
    | some s =>
      simp only [invalidSelection] at hinv
      simp only [promptSelect]
      cases hps : pyParseInt s with
      | none => rfl
      | some i =>
        rw [hps] at hinv
        have hinv' : (pyIndex printers i).isNone = true := hinv
        exact Option.isNone_iff_eq_none.mp hinv'
  have h3 : main printers (some tgt) inp entries =
      ⟨[], ["NO PRINTER SELECTED", "WORK COMPLETE"]⟩ := by
    unfold main
    rw [h1, h2]
    rfl
  exact ⟨h1, h2, h3⟩

/-- Witness for `missing_target_falls_back`: catalog {"A","B"}, configured
target "C", prompt input "x". -/
theorem missing_target_falls_back_witness :
    get_printer_name ["A", "B"] (some "C") (some "x") = promptSelect ["A", "B"] (some "x") ∧
    promptSelect ["A", "B"] (some "x") = none ∧
    main ["A", "B"] (some "C") (some "x") ["r.pdf"] =
      ⟨[], ["NO PRINTER SELECTED", "WORK COMPLETE"]⟩ :=
  missing_target_falls_back ["A", "B"] "C" (some "x") ["r.pdf"] (by decide) (by decide)

/-- C8: the File Selector returns exactly the scanned entries whose
extension is in the allow-list `PRINTABLE_EXTS = {".pdf"}`; in particular a
scan yielding x.pdf, y.png, z/w.pdf selects exactly x.pdf and z/w.pdf. -/
theorem selectFiles_exact :
    (∀ (entries : List String) (p : String),
      p ∈ selectFiles entries ↔ p ∈ entries ∧ pathSuffix p ∈ PRINTABLE_EXTS) ∧
    selectFiles ["x.pdf", "y.png", "z/w.pdf"] = ["x.pdf", "z/w.pdf"] := by
  constructor
  · intro entries p
    simp [selectFiles, List.mem_filter]
  · decide

/-- C9: an integer prompt input `i` with `−len ≤ i ≤ −1` selects the
installed printer at position `len + i` (Python negative indexing) instead
of being treated as invalid — some printer is selected. -/
theorem negative_index_selects (printers : List String) (s : String) (i : ℤ)
    (hparse : pyParseInt s = some i)
    (hlo : -(printers.length : ℤ) ≤ i) (hhi : i ≤ -1) :
    promptSelect printers (some s) =
      printers.get? (((printers.length : ℤ) + i).toNat) ∧
    (promptSelect printers (some s)).isSome = true := by
  have hneg : ¬ (0 ≤ i) := by omega
  have habs : i.natAbs ≤ printers.length := by omega
  have h1 : promptSelect printers (some s) =
      printers.get? (printers.length - i.natAbs) := by
    simp only [promptSelect]
    rw [hparse]
    show pyIndex printers i = printers.get? (printers.length - i.natAbs)
    unfold pyIndex
    rw [if_neg hneg, if_pos habs]
  have hidx : printers.length - i.natAbs = ((printers.length : ℤ) + i).toNat := by omega
  have hlt : printers.length - i.natAbs < printers.length := by omega
  refine ⟨by rw [h1, hidx], ?_⟩
  rw [h1, List.get?_eq_get hlt]
  rfl

/-- Witness for `negative_index_selects`: input "-1" on catalog
{"A","B","C"} selects the last printer, "C". -/
theorem negative_index_selects_witness :
    promptSelect ["A", "B", "C"] (some "-1") = some "C" := by
  have h := negative_index_selects ["A", "B", "C"] "-1" (-1)
    (by decide) (by decide) (by decide)
  rw [h.1]
  decide

/-- The Windows printing environment: the installed printer catalog and the
name `GetDefaultPrinter()` returns. -/
structure Env where
  installed : List String
  defaultPrinter : String

/-- `self.name = name if name else GetDefaultPrinter()` (printer.py line 28). -/
def resolvedName (env : Env) (name : String) : String :=
  if name = "" then env.defaultPrinter else name

/-- Whether `CreatePrinterDC(self.name)` (printer.py line 30) succeeds: it
fails when the resolved name is not an installed printer. -/
def openOk (env : Env) (name : String) : Bool :=
  env.installed.contains (resolvedName env name)

def isDeleteDC : Ev → Bool
  | .deleteDC => true
  | _ => false

def isShellPrint : Ev → Bool
  | .shellPrint _ => true
  | _ => false

namespace Printer

/-- `Printer.shell_print` (printer.py lines 68-74):
`startfile(path, "print")` hands the file to the OS print verb. -/
def shell_print (input : PrintInput) : Res := ⟨[.shellPrint input.name], none⟩

/-- `Printer.send` (printer.py lines 49-66): per path, dispatch to
`shell_print` or `device_print`; the optional templated status message is
console output, not a device call, so the trace does not record it. -/
def send (shell : Bool) : List PrintInput → Res
  | [] => ⟨[], none⟩
  | i :: rest =>
    seqRes (if shell then shell_print i else device_print i) (send shell rest)

end Printer

/-- Module-level `send` (printer.py lines 189-199):
`with Printer(printer_name) as printer: printer.send(*paths, ...)`. A failing
`CreatePrinterDC` raises inside `Printer.__init__`, before the context is
entered, so no device call happens and `DeleteDC` does not run; otherwise
the context manager guarantees exactly one `DeleteDC` on every exit path. -/
def send (env : Env) (printer_name : String) (paths : List PrintInput)
    (shell : Bool) : Res :=
  if openOk env printer_name then
    withCM (.createDC (resolvedName env printer_name)) (Printer.send shell paths) .deleteDC
  else ⟨[], some .deviceError⟩

lemma printer_send_shell_trace (paths : List PrintInput) :
    Printer.send true paths = ⟨paths.map (fun i => Ev.shellPrint i.name), none⟩ := by
  induction paths with
  | nil => rfl
  | cons i rest ih => simp [Printer.send, seqRes, Printer.shell_print, ih]

lemma countP_isDeleteDC_shellPrints (paths : List PrintInput) :
    (paths.map (fun i => Ev.shellPrint i.name)).countP isDeleteDC = 0 := by
  induction paths with
  | nil => rfl
  | cons i rest ih => simp [List.countP_cons, isDeleteDC, ih]

/-- C10: module-level `send` with `shell := true` still creates the device
context first — `CreateDC` for the resolved printer precedes every
`shellPrint` in the trace — and deletes it exactly once at exit; when the
device context cannot be created, the call raises a device error and no
file reaches the OS print verb. -/
theorem shell_send_device_context (env : Env) (nm : String) (paths : List PrintInput) :
    send env nm paths true =
      (if openOk env nm then
        Res.mk ((Ev.createDC (resolvedName env nm) ::
          paths.map (fun i => Ev.shellPrint i.name)) ++ [Ev.deleteDC]) none
      else Res.mk [] (some PyErr.deviceError)) ∧
    (send env nm paths true).trace.countP isDeleteDC =
      (if openOk env nm then 1 else 0) ∧
    (send env nm paths true).trace.countP isShellPrint =
      (if openOk env nm then paths.length else 0) := by
  have hps := printer_send_shell_trace paths
  by_cases hok : openOk env nm
  · have h1 : send env nm paths true =
        Res.mk ((Ev.createDC (resolvedName env nm) ::
          paths.map (fun i => Ev.shellPrint i.name)) ++ [Ev.deleteDC]) none := by
      unfold send
      rw [if_pos hok, hps]
      rfl
    refine ⟨by rw [h1, if_pos hok], ?_, ?_⟩
    · rw [h1, if_pos hok]
      simp only [List.countP_append, List.countP_cons,
        countP_isDeleteDC_shellPrints]
      rfl
    · rw [h1, if_pos hok]
      simp only [List.countP_append, List.countP_cons]
      have hc : (paths.map (fun i => Ev.shellPrint i.name)).countP isShellPrint =
          paths.length := by
        induction paths with
        | nil => rfl
        | cons i rest ih => simp [List.countP_cons, isShellPrint, ih]
      rw [hc]
      simp [isShellPrint]
  · have h1 : send env nm paths true = Res.mk [] (some PyErr.deviceError) := by
      unfold send
      rw [if_neg hok]
    refine ⟨by rw [h1, if_neg hok], ?_, ?_⟩
    · rw [h1, if_neg hok]
      rfl
    · rw [h1, if_neg hok]
      rfl

end Pywinprint
